import Mathlib

/-!
Verification of the trellis render pipeline and its caching/freshness model.

This file gives a shallow embedding of the core of the `trellis` static-site
engine (src/trellis/src/trellis/): the `Page`/`RenderedPage` data model, the
plugin registry (transformer chain + filter chain), the content-encryption
transformer with its result cache, the cache freshness oracle, the engine's
`render_page`/`page_exists`/`prebuild_all` orchestration, and the in-memory
styles/script-bundle caches.

Modelling conventions:
- file mtimes are natural numbers; `SystemTime::UNIX_EPOCH` is `0`;
- the filesystem visible to one render is captured in a `RenderWorld` record
  (the source file and cache file for the slug, the auxiliary dependency
  mtimes computed by `render_page`, and whether the cache persist succeeds);
- `anyhow::Error` values are represented by their message strings, wrapped in
  `RError` to keep the `io::ErrorKind::NotFound` distinction;
- the cryptographic primitives used by `EncryptContent` (SHA-256, PBKDF2,
  AES-256-GCM, base64) and the OS random byte source are abstracted into a
  `Crypto` record and an explicit queue of random draws: the claims under
  study concern the control flow and caching around them, not the ciphers;
- the bodies of the `FrontMatter` and `MarkdownRenderer` transformers (YAML
  and markdown parsing) are likewise abstracted as arbitrary stage functions
  where a claim only concerns the pipeline structure around them.
-/

/-- Byte string: a file's content together with its modification time. -/
structure FsFile where
  content : String
  mtime : Nat
deriving DecidableEq, Repr

/-- Subset of `serde_yaml::Value` needed by the pipeline claims (scalar
values; sequences are only consumed by the metadata stage, whose output is
modelled directly in `PageMetadata.tags`). -/
inductive Yaml where
  | str : String → Yaml
  | boolVal : Bool → Yaml
  | intVal : Int → Yaml
deriving DecidableEq, Repr

/-- Counterpart of `Value::as_bool`. -/
def Yaml.asBool : Yaml → Option Bool
  | .boolVal b => some b
  | _ => none

/-- Frontmatter of a page: the raw parsed key/value mapping plus the typed
fields consumed by the encryption stage (`password`, `word_count`,
`encrypted`), per the data model of types.rs / encryption.rs. -/
structure Frontmatter where
  entries : List (String × Yaml) := []
  password : Option String := none
  word_count : Option Nat := none
  encrypted : Option Bool := none
deriving DecidableEq, Repr

/-- Lookup of a raw frontmatter key (`HashMap::get`). -/
def Frontmatter.get (fm : Frontmatter) (key : String) : Option Yaml :=
  (fm.entries.find? (fun e => e.1 = key)).map (fun e => e.2)

/-- Structured metadata populated by the `FrontMatter` transformer
(types.rs `PageMetadata`); datetimes are modelled as naturals. -/
structure PageMetadata where
  title : Option String := none
  description : Option String := none
  created : Option Nat := none
  updated : Option Nat := none
  tags : Option (List String) := none
deriving DecidableEq, Repr

/-- The mutable pipeline value (types.rs `Page`); paths are segment lists. -/
structure Page where
  slug : String
  source_path : List String
  frontmatter : Frontmatter := {}
  content : String
  html : Option String := none
  meta : PageMetadata := {}
deriving DecidableEq, Repr

/-- Counterpart of `Page::new`. -/
def Page.new (slug : String) (source_path : List String) (content : String) : Page :=
  { slug := slug, source_path := source_path, content := content }

/-- The output record handed to the web layer (types.rs `RenderedPage`). -/
structure RenderedPage where
  slug : String
  html : String
  frontmatter : Frontmatter
  meta : PageMetadata
  cached : Option Bool := none
deriving DecidableEq, Repr

/-- Counterpart of `impl From<Page> for RenderedPage`: takes the html,
defaulting to the placeholder when absent. -/
def RenderedPage.ofPage (page : Page) : RenderedPage :=
  { slug := page.slug
    html := page.html.getD "<p>No content</p>"
    frontmatter := page.frontmatter
    meta := page.meta
    cached := none }

/-- Render-time error: an `anyhow::Error` message, tagged with whether it
originated as an `io::ErrorKind::NotFound`, another io failure, or a plain
pipeline error. -/
inductive RError where
  | notFound : String → RError
  | ioError : String → RError
  | pipeline : String → RError
deriving DecidableEq, Repr

/-- Message carried by an error (`err.to_string()`). -/
def RError.msg : RError → String
  | .notFound m => m
  | .ioError m => m
  | .pipeline m => m

/-- Whether an error is a NotFound io error. -/
def RError.isNotFound : RError → Bool
  | .notFound _ => true
  | _ => false

/-- Substring test, counterpart of Rust `str::contains` used by
`prebuild_all` to recognise the filtered signal. -/
def containsSub (hay need : String) : Bool :=
  (List.range (hay.toList.length + 1)).any
    (fun i => need.toList.isPrefixOf (hay.toList.drop i))

/-- Maximum of a dependency mtime list, with `UNIX_EPOCH` (0) as default:
`deps.iter().max().unwrap_or(UNIX_EPOCH)` in cache.rs. -/
def depsMax (deps : List Nat) : Nat :=
  deps.foldr max 0

/-- Counterpart of `cache::cache_is_fresh` (cache.rs lines 25-35):
`fs::metadata` on a missing file is an io error; otherwise fresh iff the
cache mtime dominates the source mtime and every auxiliary dependency. -/
def cache_is_fresh (src cached : Option FsFile) (deps : List Nat) : Except String Bool :=
  match src with
  | none => .error "metadata: source missing"
  | some s =>
    match cached with
    | none => .error "metadata: cache missing"
    | some c => .ok (decide (s.mtime ≤ c.mtime) && decide (depsMax deps ≤ c.mtime))

/-- The composite freshness check of `render_page` (renderer.rs lines 73-79):
`source_path.exists() && cache_path.exists() && cache_is_fresh(..)?`, with
Rust short-circuiting so `cache_is_fresh` only runs when both files exist. -/
def use_cache_check (src cached : Option FsFile) (deps : List Nat) : Except String Bool :=
  match src, cached with
  | some _, some _ => cache_is_fresh src cached deps
  | _, _ => .ok false

/-- Result type of a transformer stage: `anyhow::Result`, errors as messages. -/
abbrev TResult := Except String

/-- The plugin registry (plugins/mod.rs): an ordered transformer chain and a
filter chain. Transformer bodies are stage functions `Page → TResult Page`. -/
structure PluginRegistry where
  transformers : List (Page → TResult Page)
  filters : List (Page → Bool)

/-- Counterpart of `PluginRegistry::allow`: every filter must include. -/
def PluginRegistry.allow (r : PluginRegistry) (page : Page) : Bool :=
  r.filters.all (fun f => f page)

/-- Sequential run of a transformer list, in order (loop over `rest`). -/
def runTransformers : List (Page → TResult Page) → Page → TResult Page
  | [], p => .ok p
  | t :: ts, p => (t p).bind (runTransformers ts)

/-- Counterpart of `PluginRegistry::transform` (plugins/mod.rs lines 45-60):
the first transformer runs, then the filters gate the page (`Ok(None)` when
excluded), then the remaining transformers run in order. -/
def PluginRegistry.transform (r : PluginRegistry) (page : Page) : TResult (Option Page) :=
  match r.transformers with
  | [] => .ok (some page)
  | first :: rest =>
    match first page with
    | .error e => .error e
    | .ok p1 =>
      if r.allow p1 then (runTransformers rest p1).map some
      else .ok none

/-- Counterpart of `PluginRegistry::bare_minimum` (plugins/mod.rs lines
23-33): the fixed stage order FrontMatter, MarkdownRenderer, EncryptContent.
The three stage bodies are taken as parameters. -/
def PluginRegistry.bare_minimum (fm md enc : Page → TResult Page) : PluginRegistry :=
  { transformers := [fm, md, enc], filters := [] }

/-- Counterpart of `PluginRegistry::with_filters`. -/
def PluginRegistry.with_filters (r : PluginRegistry) (fs : List (Page → Bool)) : PluginRegistry :=
  { r with filters := fs }

/-- Observable event of a pipeline run: execution of the transformer at a
given position, or the single evaluation of the filter chain. -/
inductive PipeEvent where
  | stage : Nat → PipeEvent
  | filtersEval : PipeEvent
deriving DecidableEq, Repr

/-- Instrumented run of the later transformers, recording a `stage i` event
for each transformer that actually executes. -/
def runTransformersT : List (Page → TResult Page) → Nat → Page → TResult Page × List PipeEvent
  | [], _, p => (.ok p, [])
  | t :: ts, i, p =>
    match t p with
    | .error e => (.error e, [.stage i])
    | .ok p' =>
      let rec' := runTransformersT ts (i + 1) p'
      (rec'.1, .stage i :: rec'.2)

/-- Instrumented counterpart of `PluginRegistry::transform`: same result,
plus the ordered list of pipeline events. -/
def PluginRegistry.transformT (r : PluginRegistry) (page : Page) :
    TResult (Option Page) × List PipeEvent :=
  match r.transformers with
  | [] => (.ok (some page), [])
  | first :: rest =>
    match first page with
    | .error e => (.error e, [.stage 0])
    | .ok p1 =>
      if r.allow p1 then
        let res := runTransformersT rest 1 p1
        (res.1.map some, .stage 0 :: .filtersEval :: res.2)
      else (.ok none, [.stage 0, .filtersEval])

/-- Counterpart of `DraftFilter::include` (frontmatter.rs lines 85-93):
exclude exactly when the raw `draft` key is boolean `true`. -/
def draftFilterInclude (page : Page) : Bool :=
  match (page.frontmatter.get "draft").bind Yaml.asBool with
  | some draft => !draft
  | none => true

/-- PBKDF2 iteration count fixed by encryption.rs. -/
def PBKDF2_ITERATIONS : Nat := 120000

/-- Bytes of a string, at the abstraction level of this model. -/
def strBytes (s : String) : List Nat :=
  s.toList.map Char.toNat

/-- Little-endian bytes of a 32-bit value (`u32::to_le_bytes`). -/
def le32 (n : Nat) : List Nat :=
  [n % 256, n / 256 % 256, n / 65536 % 256, n / 16777216 % 256]

/-- Cryptographic primitives of encryption.rs, abstracted: a hex digest over
a byte stream (SHA-256), a key-derivation function (PBKDF2-HMAC-SHA256), an
authenticated cipher (AES-256-GCM, `none` models an encryption failure), and
base64 encoding. -/
structure Crypto where
  digestHex : List Nat → String
  pbkdf2Key : String → List Nat → Nat → List Nat
  aesEncrypt : List Nat → List Nat → List Nat → Option (List Nat)
  b64enc : List Nat → String

/-- One entry of the encryption result cache (encryption.rs `CachedCipher`). -/
structure CachedCipher where
  ciphertextB64 : String
  saltB64 : String
  nonceB64 : String
deriving DecidableEq, Repr

/-- State touched by `EncryptContent::transform`: the `ENCRYPT_CACHE` map and
the queue of pending random byte draws (`getrandom::fill`); an exhausted
queue models a failing random source. -/
structure EncState where
  cache : List (String × CachedCipher) := []
  rng : List (List Nat) := []

/-- Cache key of encryption.rs lines 56-61: a digest over password bytes,
plaintext bytes, the little-endian iteration count, and the algorithm
version tag `AES-256-GCM:v1`. -/
def encCacheKey (c : Crypto) (password plaintext : String) : String :=
  c.digestHex (strBytes password ++ strBytes plaintext ++ le32 PBKDF2_ITERATIONS
    ++ strBytes "AES-256-GCM:v1")

/-- Fixed pieces of the encrypted-shell HTML emitted by encryption.rs lines
115-136 (the format-string split at its four placeholders). -/
def encShellPre : String :=
  "<div class=\"encrypted-note\" data-ciphertext=\""

/-- Shell piece between the ciphertext and salt placeholders. -/
def encShellMid1 : String :=
  "\" data-salt=\""

/-- Shell piece between the salt and nonce placeholders. -/
def encShellMid2 : String :=
  "\" data-nonce=\""

/-- Shell piece between the nonce and iterations placeholders. -/
def encShellMid3 : String :=
  "\" data-iterations=\""

/-- Shell piece after the iterations placeholder (rest of the template). -/
def encShellPost : String :=
  "\" data-algo=\"AES-256-GCM\" data-kdf=\"PBKDF2-SHA256\" data-version=\"1\">\n  <div class=\"encrypted-note__chrome\">\n    <div class=\"encrypted-note__status\">Protected note Â· Enter the password to decrypt locally.</div>\n    <form class=\"encrypted-note__form\" novalidate>\n      <div class=\"encrypted-note__field\">\n        <input class=\"encrypted-note__input\" type=\"password\" name=\"password\" autocomplete=\"current-password\" placeholder=\" \" required />\n        <label class=\"encrypted-note__label\">Password</label>\n      </div>\n      <div class=\"encrypted-note__actions\">\n        <button type=\"submit\">Decrypt</button>\n      </div>\n    </form>\n  </div>\n  <div class=\"encrypted-note__decode\" aria-live=\"polite\"></div>\n  <div class=\"encrypted-note__body\" hidden></div>\n</div>"

/-- The encrypted-shell HTML as a function of the base64 cipher data. -/
def encShell (ciphertext salt nonce : String) : String :=
  encShellPre ++ ciphertext ++ encShellMid1 ++ salt ++ encShellMid2 ++ nonce
    ++ encShellMid3 ++ toString PBKDF2_ITERATIONS ++ encShellPost

/-- Number of maximal non-whitespace runs in a character list, with a flag
recording whether a word is currently open. -/
def countRuns : List Char → Bool → Nat
  | [], _ => 0
  | ch :: rest, inWord =>
    if ch.isWhitespace then countRuns rest false
    else (if inWord then 0 else 1) + countRuns rest true

/-- Word count of the pre-encryption plaintext
(`plaintext_html.split_whitespace().count()`). -/
def wordCount (s : String) : Nat :=
  countRuns s.toList false

/-- Final page mutations of `EncryptContent::transform` lines 107-136: clear
the password, record the word count and encrypted flag, and replace the html
with the encrypted shell. -/
def encFinish (page : Page) (plaintext : String) (cc : CachedCipher) : Page :=
  { page with
    frontmatter := { page.frontmatter with
      password := some ""
      word_count := some (wordCount plaintext)
      encrypted := some true }
    html := some (encShell cc.ciphertextB64 cc.saltB64 cc.nonceB64) }

/-- Counterpart of `EncryptContent::transform` (encryption.rs lines 43-139):
no-op without a password or without rendered html; otherwise look up the
result cache under the digest key, encrypting (fresh salt and nonce drawn
from the random queue) only on a miss, then emit the encrypted shell. -/
def EncryptContent.transform (c : Crypto) (st : EncState) (page : Page) :
    EncState × TResult Page :=
  match page.frontmatter.password with
  | none => (st, .ok page)
  | some password =>
    match page.html with
    | none => (st, .ok page)
    | some plaintext =>
      match (st.cache.find? (fun e => e.1 = encCacheKey c password plaintext)).map
          (fun e => e.2) with
      | some hit => (st, .ok (encFinish page plaintext hit))
      | none =>
        match st.rng with
        | salt :: rng1 =>
          match rng1 with
          | nonce :: rng2 =>
            match c.aesEncrypt (c.pbkdf2Key password salt PBKDF2_ITERATIONS) nonce
                (strBytes plaintext) with
            | none => ({ st with rng := rng2 }, .error "encrypting protected note")
            | some ciphertext =>
              ({ cache := (encCacheKey c password plaintext,
                    { ciphertextB64 := c.b64enc ciphertext
                      saltB64 := c.b64enc salt
                      nonceB64 := c.b64enc nonce }) :: st.cache, rng := rng2 },
                .ok (encFinish page plaintext
                  { ciphertextB64 := c.b64enc ciphertext
                    saltB64 := c.b64enc salt
                    nonceB64 := c.b64enc nonce }))
          | [] => ({ st with rng := [] }, .error "random nonce failed")
        | [] => (st, .error "random salt failed")

/-- Whether a path's final segment has an extension, after Rust
`Path::extension().is_some()`: a dot occurring after the first character. -/
def segHasExtension (s : String) : Bool :=
  (s.toList.drop 1).contains '.'

/-- Counterpart of `with_extension("md")` on an extensionless path. -/
def addMdIfNoExtension (s : String) : String :=
  if segHasExtension s then s else s ++ ".md"

/-- Split of a character list at `/` separators (path components). -/
def splitSegs : List Char → List (List Char)
  | [] => [[]]
  | ch :: rest =>
    match splitSegs rest with
    | [] => [[ch]]
    | seg :: segs =>
      if ch = '/' then [] :: seg :: segs else (ch :: seg) :: segs

/-- Source path of a slug relative to the content root
(`TrellisEngine::source_path_for` after `strip_prefix(content_root)`):
the slug's segments, with `.md` appended to the last when it carries no
extension. -/
def source_rel_path (slug : String) : List String :=
  match ((splitSegs slug.toList).map String.mk).reverse with
  | [] => []
  | last :: revInit => revInit.reverse ++ [addMdIfNoExtension last]

/-- Whether a content string is blank, after Rust `content.trim().is_empty()`. -/
def isBlank (s : String) : Bool :=
  s.toList.all Char.isWhitespace

/-- The engine's configuration and plugin registry (`TrellisEngine`);
content/cache roots are abstracted away, paths being kept root-relative. -/
structure TrellisEngine where
  ignorePatterns : List String
  registry : PluginRegistry

/-- Counterpart of `TrellisEngine::is_ignored_path` on the slug's source
path (renderer.rs lines 237-254): some segment of the relative path equals
some configured ignore pattern. -/
def TrellisEngine.is_ignored_slug (eng : TrellisEngine) (slug : String) : Bool :=
  (source_rel_path slug).any (fun seg => eng.ignorePatterns.any (fun p => p = seg))

/-- Filesystem and io outcomes visible to a single `render_page` call: the
source file at the slug's source path, the cache file at the slug's cache
path, the four auxiliary dependency mtimes (styles, binary, config, theme
marker), and whether a cache persist would succeed. -/
structure RenderWorld where
  source : Option FsFile := none
  cacheFile : Option FsFile := none
  auxMtimes : List Nat := []
  writeOk : Bool := true

/-- Counterpart of `TrellisEngine::load_page` (renderer.rs lines 133-161):
NotFound for an ignored slug, a missing source, or blank content; otherwise
a fresh `Page` from the source text. -/
def TrellisEngine.load_page (eng : TrellisEngine) (w : RenderWorld) (slug : String) :
    Except RError Page :=
  if eng.is_ignored_slug slug then
    .error (.notFound ("slug " ++ slug ++ " is ignored by configuration"))
  else
    match w.source with
    | some f =>
      if isBlank f.content then
        .error (.notFound ("empty markdown for slug " ++ slug))
      else .ok (Page.new slug (source_rel_path slug) f.content)
    | none => .error (.notFound ("missing markdown for slug " ++ slug))

/-- Result of one `render_page` call: the returned value and the bytes
written to the on-disk cache file, when a persist happened. -/
structure RenderOut where
  result : Except RError RenderedPage
  written : Option String
deriving Repr

/-- Counterpart of `TrellisEngine::render_page` (renderer.rs lines 51-103):
reject ignored slugs with NotFound; compute cache freshness; always load and
transform the page (a filtered page is the distinct `page filtered out by
plugins` error); on a cache hit substitute the cached html, otherwise
persist the fresh html (a failing persist propagates); finally record the
`cached` flag. -/
def TrellisEngine.render_page (eng : TrellisEngine) (w : RenderWorld) (slug : String) :
    RenderOut :=
  if eng.is_ignored_slug slug then
    ⟨.error (.notFound ("slug " ++ slug ++ " is ignored by configuration")), none⟩
  else
    match use_cache_check w.source w.cacheFile w.auxMtimes with
    | .error m => ⟨.error (.ioError m), none⟩
    | .ok useCache =>
      match eng.load_page w slug with
      | .error e => ⟨.error e, none⟩
      | .ok page =>
        match eng.registry.transform page with
        | .error m => ⟨.error (.pipeline m), none⟩
        | .ok none => ⟨.error (.pipeline ("page filtered out by plugins: " ++ slug)), none⟩
        | .ok (some p1) =>
          if useCache then
            match w.cacheFile with
            | some c =>
              let rendered := RenderedPage.ofPage { p1 with html := some c.content }
              ⟨.ok { rendered with cached := some true }, none⟩
            | none => ⟨.error (.ioError "cache read failed"), none⟩
          else
            let rendered := RenderedPage.ofPage p1
            if w.writeOk then
              ⟨.ok { rendered with cached := some false }, some rendered.html⟩
            else ⟨.error (.ioError "cache write failed"), none⟩

/-- Counterpart of `TrellisEngine::page_exists` (renderer.rs lines 107-113):
an ignored slug is reported missing even if files exist. -/
def TrellisEngine.page_exists (eng : TrellisEngine) (w : RenderWorld) (slug : String) : Bool :=
  if eng.is_ignored_slug slug then false else w.source.isSome

/-- Counterpart of the `prebuild_all` loop body (renderer.rs lines 164-195)
over the walked list of markdown slugs: a render whose error message carries
the `page filtered out by plugins` signal is skipped, any other error aborts
the batch, successes accumulate in order. -/
def TrellisEngine.prebuild_all (eng : TrellisEngine) (worlds : String → RenderWorld) :
    List String → Except RError (List String)
  | [] => .ok []
  | slug :: rest =>
    match (eng.render_page (worlds slug) slug).result with
    | .ok _ => (eng.prebuild_all worlds rest).map (fun slugs => slug :: slugs)
    | .error e =>
      if containsSub e.msg "page filtered out by plugins" then
        eng.prebuild_all worlds rest
      else .error e

/-- The styles cache record (styles.rs `StylesCache`). -/
structure StylesCache where
  css : String
  mtime : Nat
deriving DecidableEq, Repr

/-- Counterpart of the write-locked store of `compiled_styles` (styles.rs
lines 28-34): replace the cached css only when the computation's freshness
timestamp is strictly newer than what is already cached. -/
def styles_store (guard : StylesCache) (scss_mtime : Nat) (fresh_css : String) : StylesCache :=
  if guard.mtime < scss_mtime then { css := fresh_css, mtime := scss_mtime } else guard

/-- Script bundle kinds (bundler.rs `ScriptKind`). -/
inductive ScriptKind where
  | explorer
  | overlayExplorer
  | encryptedNote
  | mermaid
  | callouts
  | graph
deriving DecidableEq, Repr

/-- The script bundle cache record (bundler.rs `ScriptsCache`). -/
structure ScriptsCache where
  bundles : List (ScriptKind × String)
  mtime : Nat
deriving DecidableEq, Repr

/-- Counterpart of the write-locked store of `inline_scripts` (bundler.rs
lines 107-112): the freshly built bundles and their timestamp replace the
cached ones unconditionally. -/
def scripts_store (_guard : ScriptsCache) (bundles : List (ScriptKind × String))
    (mtime : Nat) : ScriptsCache :=
  { bundles := bundles, mtime := mtime }

/-- Identity stage used to instantiate abstract transformer slots in
concrete test fixtures. -/
def okStage : Page → TResult Page := fun p => .ok p

/-- Concrete instantiation of the cryptographic primitives, used to evaluate
the embedding on closed inputs. -/
def fixedCrypto : Crypto :=
  { digestHex := fun bytes => toString (bytes.foldl (fun a b => a + b) 0)
    pbkdf2Key := fun _ salt iters => salt ++ [iters % 256]
    aesEncrypt := fun key nonce plaintext => some (key ++ nonce ++ plaintext)
    b64enc := fun bytes => toString bytes.length }

/-- Encryption state fixture: empty result cache, two pending random draws. -/
def encStateFix : EncState :=
  { cache := [], rng := [[7], [8]] }

/-- Page fixture whose password coincides with literal text of the encrypted
shell template. -/
def pwPage : Page :=
  { slug := "note", source_path := ["note.md"],
    frontmatter := { password := some "Decrypt" },
    content := "body", html := some "hi" }

/-- Result page of running the encryption stage on `pwPage`. -/
def pwPageOut : Page :=
  match (EncryptContent.transform fixedCrypto encStateFix pwPage).2 with
  | .ok p => p
  | .error _ => pwPage

/-- Encryption state after running the encryption stage on `pwPage`. -/
def encSt1 : EncState :=
  (EncryptContent.transform fixedCrypto encStateFix pwPage).1

/-- Page fixture with a password but no rendered html. -/
def pageNoHtml : Page :=
  { slug := "n", source_path := ["n.md"],
    frontmatter := { password := some "pw" },
    content := "c", html := none }

/-- Engine fixture with identity stages and no filters or ignore patterns. -/
def engId : TrellisEngine :=
  { ignorePatterns := [],
    registry := PluginRegistry.bare_minimum okStage okStage okStage }

/-- World fixture in which the cache persist fails. -/
def worldWriteFail : RenderWorld :=
  { source := some { content := "hello", mtime := 5 },
    cacheFile := none, auxMtimes := [0, 0, 0, 0], writeOk := false }

/-- Page fixture for pipeline-shape witnesses. -/
def witPage : Page := Page.new "w" ["w.md"] "hello"

/-- Stage fixture that marks the page as a draft (standing in for a
FrontMatter run over a `draft: true` source). -/
def draftStage : Page → TResult Page :=
  fun p => .ok { p with frontmatter := { entries := [("draft", Yaml.boolVal true)] } }

/-- Engine fixture whose pipeline marks every page as a draft and filters
drafts out. -/
def engDraft : TrellisEngine :=
  { ignorePatterns := [],
    registry := (PluginRegistry.bare_minimum draftStage okStage okStage).with_filters
      [draftFilterInclude] }

/-- World fixture with just a source file. -/
def worldSrc : RenderWorld :=
  { source := some { content := "hello", mtime := 5 } }

/-- Engine fixture ignoring the `private` path segment. -/
def engPriv : TrellisEngine :=
  { ignorePatterns := ["private"],
    registry := PluginRegistry.bare_minimum okStage okStage okStage }

/-- World fixture where a (stale) cache file exists alongside the source. -/
def worldCachedStale : RenderWorld :=
  { source := some { content := "hello", mtime := 5 },
    cacheFile := some { content := "stale html", mtime := 1 },
    auxMtimes := [0, 0, 0, 0] }

/-- World fixture where the cache file is fresh (a cache hit). -/
def worldHit : RenderWorld :=
  { source := some { content := "hello", mtime := 5 },
    cacheFile := some { content := "cached html", mtime := 10 },
    auxMtimes := [2, 3] }

/-! Helper lemmas. -/

/-- Character list of a concatenation. -/
theorem toList_append (a b : String) : (a ++ b).toList = a.toList ++ b.toList := by
  cases a; cases b; rfl

/-- A list is a Boolean prefix of itself extended on the right. -/
theorem isPrefixOf_append_self (l t : List Char) : l.isPrefixOf (l ++ t) = true := by
  induction l with
  | nil => simp [List.isPrefixOf]
  | cons a as ih => simp [List.isPrefixOf, ih]

/-- A substring sitting between two others is found by `containsSub`. -/
theorem containsSub_middle (a b c : String) : containsSub (a ++ b ++ c) b = true := by
  unfold containsSub
  apply List.any_eq_true.mpr
  refine ⟨a.toList.length, List.mem_range.mpr ?_, ?_⟩
  · have : (a ++ b ++ c).toList = a.toList ++ (b.toList ++ c.toList) := by
      rw [toList_append, toList_append, List.append_assoc]
    rw [this]
    simp
    omega
  · have : (a ++ b ++ c).toList = a.toList ++ (b.toList ++ c.toList) := by
      rw [toList_append, toList_append, List.append_assoc]
    rw [this, List.drop_left]
    exact isPrefixOf_append_self _ _

/-- A prefix substring is found by `containsSub`. -/
theorem containsSub_of_prefixed (b c : String) : containsSub (b ++ c) b = true := by
  have h := containsSub_middle "" b c
  have he : "" ++ b ++ c = b ++ c := by
    cases b; cases c; rfl
  rwa [he] at h

/-- Bounding the maximum of a dependency list. -/
theorem depsMax_le_iff (deps : List Nat) (m : Nat) :
    depsMax deps ≤ m ↔ ∀ d ∈ deps, d ≤ m := by
  unfold depsMax
  induction deps with
  | nil => simp
  | cons d ds ih => simp [Nat.max_le, ih]

/-- The composite freshness check never raises: the exists-guards run first. -/
theorem use_cache_check_isOk (src cached : Option FsFile) (deps : List Nat) :
    ∃ b, use_cache_check src cached deps = .ok b := by
  cases src with
  | none => exact ⟨false, rfl⟩
  | some s =>
    cases cached with
    | none => exact ⟨false, rfl⟩
    | some c => exact ⟨_, rfl⟩

/-- C1: the freshness check of `render_page` (and `cache_is_fresh` itself)
returns true iff both the cache file and source file exist, the cache mtime
is at least the source mtime, and the cache mtime is at least the maximum of
the auxiliary dependency mtimes; the boundary `cache_mtime = source_mtime`
is fresh, and a cache mtime below either bound is stale. -/
theorem C1_freshness_oracle (src cached : Option FsFile) (deps : List Nat) :
    (use_cache_check src cached deps = .ok true ↔
      ∃ s c, src = some s ∧ cached = some c ∧ s.mtime ≤ c.mtime ∧ depsMax deps ≤ c.mtime)
    ∧ (cache_is_fresh src cached deps = .ok true ↔
      ∃ s c, src = some s ∧ cached = some c ∧ s.mtime ≤ c.mtime ∧ depsMax deps ≤ c.mtime)
    ∧ (∀ c : FsFile, depsMax deps ≤ c.mtime ↔ ∀ d ∈ deps, d ≤ c.mtime)
    ∧ (∀ s c : FsFile, c.mtime = s.mtime → depsMax deps ≤ c.mtime →
        use_cache_check (some s) (some c) deps = .ok true)
    ∧ (∀ s c : FsFile, c.mtime < s.mtime →
        use_cache_check (some s) (some c) deps = .ok false)
    ∧ (∀ s c : FsFile, c.mtime < depsMax deps →
        use_cache_check (some s) (some c) deps = .ok false) := by
  refine ⟨?_, ?_, fun c => depsMax_le_iff deps c.mtime, ?_, ?_, ?_⟩
  · cases src with
    | none => simp [use_cache_check]
    | some s =>
      cases cached with
      | none => simp [use_cache_check]
      | some c => simp [use_cache_check, cache_is_fresh]
  · cases src with
    | none => simp [cache_is_fresh]
    | some s =>
      cases cached with
      | none => simp [cache_is_fresh]
      | some c => simp [cache_is_fresh]
  · intro s c he hd
    simp [use_cache_check, cache_is_fresh, he, hd]
    omega
  · intro s c hlt
    simp [use_cache_check, cache_is_fresh]
    omega
  · intro s c hlt
    simp [use_cache_check, cache_is_fresh]
    omega

/-- Witness for C1 at concrete mtimes: source 5, cache 5, auxiliary [2, 3]
is fresh; lowering the cache mtime to 4 or raising an auxiliary mtime to 7
makes it stale. -/
theorem C1_freshness_oracle_witness :
    use_cache_check (some { content := "s", mtime := 5 })
        (some { content := "c", mtime := 5 }) [2, 3] = .ok true
    ∧ use_cache_check (some { content := "s", mtime := 5 })
        (some { content := "c", mtime := 4 }) [2, 3] = .ok false
    ∧ use_cache_check (some { content := "s", mtime := 5 })
        (some { content := "c", mtime := 5 }) [7] = .ok false := by
  refine ⟨?_, ?_, ?_⟩
  · exact (C1_freshness_oracle (some { content := "s", mtime := 5 })
      (some { content := "c", mtime := 5 }) [2, 3]).2.2.2.1 _ _ rfl (by decide)
  · exact (C1_freshness_oracle (some { content := "s", mtime := 5 })
      (some { content := "c", mtime := 4 }) [2, 3]).2.2.2.2.1 _ _ (by decide)
  · exact (C1_freshness_oracle (some { content := "s", mtime := 5 })
      (some { content := "c", mtime := 5 }) [7]).2.2.2.2.2 _ _ (by decide)

/-- Binding a stage result into the trivial continuation is the identity. -/
theorem tresult_bind_ok (x : TResult Page) :
    (x.bind fun p => (.ok p : TResult Page)) = x := by
  cases x <;> rfl

/-- The instrumented later-stage run computes the same result as the plain
one. -/
theorem runTransformersT_fst (ts : List (Page → TResult Page)) (i : Nat) (p : Page) :
    (runTransformersT ts i p).1 = runTransformers ts p := by
  induction ts generalizing i p with
  | nil => rfl
  | cons t ts ih =>
    unfold runTransformersT runTransformers
    cases t p with
    | error e => rfl
    | ok p' => simpa [Except.bind] using ih (i + 1) p'

/-- The instrumented pipeline computes the same result as
`PluginRegistry::transform`. -/
theorem transformT_fst (r : PluginRegistry) (page : Page) :
    (r.transformT page).1 = r.transform page := by
  unfold PluginRegistry.transformT PluginRegistry.transform
  cases hts : r.transformers with
  | nil => rfl
  | cons first rest =>
    cases hfp : first page with
    | error e => simp [hfp]
    | ok p1 =>
      by_cases h : r.allow p1
      · simp [hfp, h, runTransformersT_fst]
      · simp [hfp, h]

/-- Every event recorded by the later-stage run is a stage execution at
position at least `i`. -/
theorem runTransformersT_events (ts : List (Page → TResult Page)) (i : Nat) (p : Page) :
    ∀ e ∈ (runTransformersT ts i p).2, ∃ j, e = .stage j ∧ i ≤ j := by
  induction ts generalizing i p with
  | nil => intro e he; simp [runTransformersT] at he
  | cons t ts ih =>
    intro e he
    unfold runTransformersT at he
    cases ht : t p with
    | error m =>
      rw [ht] at he
      simp at he
      exact ⟨i, he, Nat.le_refl i⟩
    | ok p' =>
      rw [ht] at he
      simp at he
      cases he with
      | inl h => exact ⟨i, h, Nat.le_refl i⟩
      | inr h =>
        obtain ⟨j, hj, hij⟩ := ih (i + 1) p' e h
        exact ⟨j, hj, by omega⟩

/-- C4: in the `bare_minimum` pipeline the filter chain is evaluated exactly
once, on the output of the first transformer and before the later
transformers; when a filter excludes the page, the pipeline yields the
non-error `Ok(None)` outcome regardless of what the later transformers would
do, and otherwise the later transformers all run, in order. -/
theorem C4_filters_once_between_stages
    (fm md enc : Page → TResult Page) (fs : List (Page → Bool)) (page p1 : Page)
    (hfm : fm page = .ok p1) :
    (((PluginRegistry.bare_minimum fm md enc).with_filters fs).transformT page).1
      = ((PluginRegistry.bare_minimum fm md enc).with_filters fs).transform page
    ∧ (((PluginRegistry.bare_minimum fm md enc).with_filters fs).transformT page).2.count
        PipeEvent.filtersEval = 1
    ∧ (((PluginRegistry.bare_minimum fm md enc).with_filters fs).transformT page).2.take 2
        = [PipeEvent.stage 0, PipeEvent.filtersEval]
    ∧ (∀ e ∈ (((PluginRegistry.bare_minimum fm md enc).with_filters fs).transformT
          page).2.drop 2, ∃ j, e = PipeEvent.stage j ∧ 1 ≤ j)
    ∧ (((PluginRegistry.bare_minimum fm md enc).with_filters fs).allow p1 = false →
        ∀ md' enc',
          ((PluginRegistry.bare_minimum fm md' enc').with_filters fs).transform page
            = .ok none)
    ∧ (((PluginRegistry.bare_minimum fm md enc).with_filters fs).allow p1 = true →
        ((PluginRegistry.bare_minimum fm md enc).with_filters fs).transform page
          = ((md p1).bind enc).map some) := by
  have htr : ((PluginRegistry.bare_minimum fm md enc).with_filters fs).transformers
      = [fm, md, enc] := rfl
  refine ⟨transformT_fst _ _, ?_, ?_, ?_, ?_, ?_⟩
  · unfold PluginRegistry.transformT
    rw [htr]
    simp only [hfm]
    by_cases h : ((PluginRegistry.bare_minimum fm md enc).with_filters fs).allow p1
    · simp only [h, if_pos]
      have hz : ((runTransformersT [md, enc] 1 p1).2.count PipeEvent.filtersEval) = 0 := by
        apply List.count_eq_zero.mpr
        intro hmem
        obtain ⟨j, hj, _⟩ := runTransformersT_events [md, enc] 1 p1 _ hmem
        exact PipeEvent.noConfusion hj
      simp [List.count_cons, hz]
    · simp [h]
  · unfold PluginRegistry.transformT
    rw [htr]
    simp only [hfm]
    by_cases h : ((PluginRegistry.bare_minimum fm md enc).with_filters fs).allow p1
    · simp [h]
    · simp [h]
  · unfold PluginRegistry.transformT
    rw [htr]
    simp only [hfm]
    by_cases h : ((PluginRegistry.bare_minimum fm md enc).with_filters fs).allow p1
    · simp only [h, if_pos]
      intro e he
      simp at he
      exact runTransformersT_events [md, enc] 1 p1 e he
    · simp [h]
  · intro hno md' enc'
    have hallow : ((PluginRegistry.bare_minimum fm md' enc').with_filters fs).allow p1
        = false := hno
    unfold PluginRegistry.transform
    have htr' : ((PluginRegistry.bare_minimum fm md' enc').with_filters fs).transformers
        = [fm, md', enc'] := rfl
    rw [htr']
    simp [hfm, hallow]
  · intro hyes
    have hrun : runTransformers [md, enc] p1 = (md p1).bind enc := by
      cases hmd : md p1 with
      | error e => simp [runTransformers, hmd, Except.bind]
      | ok q =>
        cases henc : enc q with
        | error e => simp [runTransformers, hmd, henc, Except.bind]
        | ok q2 => simp [runTransformers, hmd, henc, Except.bind]
    unfold PluginRegistry.transform
    rw [htr]
    simp only [hfm, hyes, if_pos]
    rw [hrun]

/-- Witness for C4: with identity stages and a content filter, the trace of
a concrete page records exactly one filter evaluation, and the pass-through
case runs the later stages in order. -/
theorem C4_filters_once_between_stages_witness :
    (((PluginRegistry.bare_minimum okStage okStage okStage).with_filters
        [fun p => p.content = "hello"]).transformT witPage).2.count PipeEvent.filtersEval = 1
    ∧ ((PluginRegistry.bare_minimum okStage okStage okStage).with_filters
        [fun p => p.content = "hello"]).transform witPage
      = ((okStage witPage).bind okStage).map some := by
  refine ⟨?_, ?_⟩
  · exact (C4_filters_once_between_stages okStage okStage okStage
      [fun p => p.content = "hello"] witPage witPage rfl).2.1
  · exact (C4_filters_once_between_stages okStage okStage okStage
      [fun p => p.content = "hello"] witPage witPage rfl).2.2.2.2.2 (by rfl)

/-- C10: with a password set but no rendered html, the encryption stage is a
complete no-op: the page comes back unchanged (in particular the password is
not cleared), no randomness is consumed, and no error is raised. -/
theorem C10_no_html_no_op
    (c : Crypto) (st : EncState) (page : Page) (pw : String)
    (hpw : page.frontmatter.password = some pw) (hne : pw ≠ "")
    (hh : page.html = none) :
    EncryptContent.transform c st page = (st, .ok page)
    ∧ page.frontmatter.password ≠ some "" := by
  constructor
  · unfold EncryptContent.transform
    rw [hpw, hh]
  · rw [hpw]
    intro hcontra
    exact hne (Option.some.inj hcontra)

/-- Witness for C10 on a concrete page with password `pw` and absent html. -/
theorem C10_no_html_no_op_witness :
    EncryptContent.transform fixedCrypto encStateFix pageNoHtml
      = (encStateFix, .ok pageNoHtml)
    ∧ pageNoHtml.frontmatter.password ≠ some "" :=
  ⟨(C10_no_html_no_op fixedCrypto encStateFix pageNoHtml "pw" rfl (by decide) rfl).1,
   (C10_no_html_no_op fixedCrypto encStateFix pageNoHtml "pw" rfl (by decide) rfl).2⟩

/-- When the result cache already holds the key, the encryption stage
returns the cached cipher data and leaves its state untouched. -/
theorem encrypt_transform_hit
    (c : Crypto) (st : EncState) (page : Page) (pw h : String) (cc : CachedCipher)
    (hpw : page.frontmatter.password = some pw)
    (hhtml : page.html = some h)
    (hfind : (st.cache.find? (fun e => e.1 = encCacheKey c pw h)).map (fun e => e.2)
      = some cc) :
    EncryptContent.transform c st page = (st, .ok (encFinish page h cc)) := by
  unfold EncryptContent.transform
  rw [hpw, hhtml]
  simp only [hfind]

/-- A successful run of the encryption stage leaves the result cache holding
the cipher data used for the page under the page's digest key. -/
theorem encrypt_transform_ok_inversion
    (c : Crypto) (st : EncState) (page : Page) (pw h : String) (st1 : EncState) (p1 : Page)
    (hpw : page.frontmatter.password = some pw)
    (hhtml : page.html = some h)
    (h1 : EncryptContent.transform c st page = (st1, .ok p1)) :
    ∃ cc, (st1.cache.find? (fun e => e.1 = encCacheKey c pw h)).map (fun e => e.2) = some cc
      ∧ p1 = encFinish page h cc := by
  unfold EncryptContent.transform at h1
  rw [hpw, hhtml] at h1
  dsimp only at h1
  cases hfind : (st.cache.find? (fun e => e.1 = encCacheKey c pw h)).map (fun e => e.2) with
  | some hit =>
    rw [hfind] at h1
    dsimp only at h1
    have hst : st = st1 := congrArg Prod.fst h1
    have hp : p1 = encFinish page h hit :=
      (Except.ok.inj (congrArg Prod.snd h1)).symm
    exact ⟨hit, by rw [← hst, hfind], hp⟩
  | none =>
    rw [hfind] at h1
    dsimp only at h1
    cases hrng : st.rng with
    | nil =>
      rw [hrng] at h1
      dsimp only at h1
      exact absurd (congrArg Prod.snd h1) (by simp)
    | cons salt rng1 =>
      rw [hrng] at h1
      dsimp only at h1
      cases rng1 with
      | nil =>
        exact absurd (congrArg Prod.snd h1) (by simp)
      | cons nonce rng2 =>
        dsimp only at h1
        cases henc : c.aesEncrypt (c.pbkdf2Key pw salt PBKDF2_ITERATIONS) nonce
            (strBytes h) with
        | none =>
          rw [henc] at h1
          dsimp only at h1
          exact absurd (congrArg Prod.snd h1) (by simp)
        | some ct =>
          rw [henc] at h1
          dsimp only at h1
          have hst : ({ cache := (encCacheKey c pw h,
              { ciphertextB64 := c.b64enc ct, saltB64 := c.b64enc salt,
                nonceB64 := c.b64enc nonce }) :: st.cache, rng := rng2 } : EncState)
              = st1 := congrArg Prod.fst h1
          have hp : p1 = encFinish page h
              { ciphertextB64 := c.b64enc ct, saltB64 := c.b64enc salt,
                nonceB64 := c.b64enc nonce } :=
            (Except.ok.inj (congrArg Prod.snd h1)).symm
          refine ⟨_, ?_, hp⟩
          rw [← hst]
          simp [List.find?]

/-- C6: a second run of the encryption stage with the same password, the
same plaintext html, the same iteration count and algorithm tag hits the
result cache: it returns the byte-identical output of the first run and
leaves the state (cache and pending randomness) untouched; the cache key is
the digest over password, plaintext, iteration count and algorithm version
string. -/
theorem C6_encryption_cache_hit
    (c : Crypto) (st : EncState) (page : Page) (pw h : String) (st1 : EncState) (p1 : Page)
    (hpw : page.frontmatter.password = some pw)
    (hhtml : page.html = some h)
    (h1 : EncryptContent.transform c st page = (st1, .ok p1)) :
    EncryptContent.transform c st1 page = (st1, .ok p1)
    ∧ encCacheKey c pw h
        = c.digestHex (strBytes pw ++ strBytes h ++ le32 PBKDF2_ITERATIONS
            ++ strBytes "AES-256-GCM:v1") := by
  refine ⟨?_, rfl⟩
  obtain ⟨cc, hfind, hp⟩ :=
    encrypt_transform_ok_inversion c st page pw h st1 p1 hpw hhtml h1
  rw [hp]
  exact encrypt_transform_hit c st1 page pw h cc hpw hhtml hfind

/-- Witness for C6: running the stage twice on `pwPage` from the fixture
state reproduces the first output with an unchanged state. -/
theorem C6_encryption_cache_hit_witness :
    EncryptContent.transform fixedCrypto encSt1 pwPage = (encSt1, .ok pwPageOut) :=
  (C6_encryption_cache_hit fixedCrypto encStateFix pwPage "Decrypt" "hi" encSt1 pwPageOut
    rfl rfl rfl).1

/-- String concatenation is associative. -/
theorem str_append_assoc (a b c : String) : a ++ b ++ c = a ++ (b ++ c) := by
  cases a with
  | mk la =>
    cases b with
    | mk lb =>
      cases c with
      | mk lc =>
        show String.mk ((la ++ lb) ++ lc) = String.mk (la ++ (lb ++ lc))
        rw [List.append_assoc]

/-- A substring in the last component of an appended text is found. -/
theorem containsSub_append_middle (x p1 w p2 : String) :
    containsSub (x ++ (p1 ++ w ++ p2)) w = true := by
  have hx : x ++ (p1 ++ w ++ p2) = (x ++ p1) ++ w ++ p2 := by
    rw [str_append_assoc p1 w p2, ← str_append_assoc x p1 (w ++ p2),
      str_append_assoc (x ++ p1) w p2]
  rw [hx]
  exact containsSub_middle _ _ _

/-- Loading succeeds on a non-ignored slug whose source exists and has
non-blank content. -/
theorem load_page_ok (eng : TrellisEngine) (w : RenderWorld) (slug : String) (f : FsFile)
    (hig : eng.is_ignored_slug slug = false)
    (hsrc : w.source = some f) (hne : isBlank f.content = false) :
    eng.load_page w slug = .ok (Page.new slug (source_rel_path slug) f.content) := by
  unfold TrellisEngine.load_page
  simp [hig, hsrc, hne]

/-- Full reduction of `render_page` when the pipeline succeeds: the outcome
is decided by the freshness bit and the persist outcome. -/
theorem render_page_eq
    (eng : TrellisEngine) (w : RenderWorld) (slug : String) (f : FsFile) (p1 : Page) (b : Bool)
    (hig : eng.is_ignored_slug slug = false)
    (hsrc : w.source = some f) (hne : isBlank f.content = false)
    (hfresh : use_cache_check w.source w.cacheFile w.auxMtimes = .ok b)
    (htr : eng.registry.transform (Page.new slug (source_rel_path slug) f.content)
      = .ok (some p1)) :
    eng.render_page w slug =
      if b then
        match w.cacheFile with
        | some c =>
          ⟨.ok { RenderedPage.ofPage { p1 with html := some c.content } with
              cached := some true }, none⟩
        | none => ⟨.error (.ioError "cache read failed"), none⟩
      else
        if w.writeOk then
          ⟨.ok { RenderedPage.ofPage p1 with cached := some false },
            some (RenderedPage.ofPage p1).html⟩
        else ⟨.error (.ioError "cache write failed"), none⟩ := by
  unfold TrellisEngine.render_page
  rw [load_page_ok eng w slug f hig hsrc hne]
  simp only [hig, hfresh, htr, Bool.false_eq_true, if_false]

/-- Full reduction of `render_page` when a filter excludes the page. -/
theorem render_page_filtered_eq
    (eng : TrellisEngine) (w : RenderWorld) (slug : String) (f : FsFile)
    (hig : eng.is_ignored_slug slug = false)
    (hsrc : w.source = some f) (hne : isBlank f.content = false)
    (htr : eng.registry.transform (Page.new slug (source_rel_path slug) f.content)
      = .ok none) :
    eng.render_page w slug
      = ⟨.error (.pipeline ("page filtered out by plugins: " ++ slug)), none⟩ := by
  obtain ⟨b, hb⟩ := use_cache_check_isOk w.source w.cacheFile w.auxMtimes
  unfold TrellisEngine.render_page
  rw [load_page_ok eng w slug f hig hsrc hne]
  simp only [hig, hb, htr, Bool.false_eq_true, if_false]

set_option maxRecDepth 8192 in
/-- C5 counterexample: the claim that the raw password string occurs nowhere
in the returned html fails when the password coincides with fixed text of
the encrypted shell. For the page `pwPage` with password `Decrypt` the
encryption stage succeeds, clears the password field, yet its output html
contains the substring `Decrypt` (the shell's button label). -/
theorem C5_password_in_output_counterexample :
    pwPage.frontmatter.password = some "Decrypt"
    ∧ "Decrypt" ≠ ""
    ∧ pwPage.html = some "hi"
    ∧ (EncryptContent.transform fixedCrypto encStateFix pwPage).2 = .ok pwPageOut
    ∧ pwPageOut.frontmatter.password = some ""
    ∧ containsSub (pwPageOut.html.getD "") "Decrypt" = true := by
  refine ⟨rfl, by decide, rfl, rfl, rfl, ?_⟩
  have hout : pwPageOut.html.getD ""
      = (encShellPre ++ "5" ++ encShellMid1 ++ "1" ++ encShellMid2 ++ "1"
          ++ encShellMid3 ++ "120000")
        ++ ("\" data-algo=\"AES-256-GCM\" data-kdf=\"PBKDF2-SHA256\" data-version=\"1\">\n  <div class=\"encrypted-note__chrome\">\n    <div class=\"encrypted-note__status\">Protected note Â· Enter the password to decrypt locally.</div>\n    <form class=\"encrypted-note__form\" novalidate>\n      <div class=\"encrypted-note__field\">\n        <input class=\"encrypted-note__input\" type=\"password\" name=\"password\" autocomplete=\"current-password\" placeholder=\" \" required />\n        <label class=\"encrypted-note__label\">Password</label>\n      </div>\n      <div class=\"encrypted-note__actions\">\n        <button type=\"submit\">"
          ++ "Decrypt"
          ++ "</button>\n      </div>\n    </form>\n  </div>\n  <div class=\"encrypted-note__decode\" aria-live=\"polite\"></div>\n  <div class=\"encrypted-note__body\" hidden></div>\n</div>") := by
    rfl
  rw [hout]
  exact containsSub_append_middle _ _ _ _

/-- C5 (amended): once the encryption stage has run over a page with a
password and rendered html, the password field is overwritten with the empty
value and the html is exactly the fixed encrypted shell instantiated with
the base64 ciphertext, salt and nonce — the password value itself is never
interpolated into the output (any occurrence of it can only come from the
fixed shell text or the base64 cipher data); and the bytes `render_page`
persists to the cache file are exactly the pipeline's final html. -/
theorem C5_password_clearing_amended :
    (∀ (c : Crypto) (st : EncState) (page : Page) (pw h : String)
        (st1 : EncState) (p1 : Page),
      page.frontmatter.password = some pw → page.html = some h →
      EncryptContent.transform c st page = (st1, .ok p1) →
      p1.frontmatter.password = some ""
      ∧ ∃ cc : CachedCipher,
          p1.html = some (encShell cc.ciphertextB64 cc.saltB64 cc.nonceB64))
    ∧ (∀ (eng : TrellisEngine) (w : RenderWorld) (slug : String) (f : FsFile) (p1 : Page),
      eng.is_ignored_slug slug = false → w.source = some f → isBlank f.content = false →
      eng.registry.transform (Page.new slug (source_rel_path slug) f.content)
        = .ok (some p1) →
      use_cache_check w.source w.cacheFile w.auxMtimes = .ok false → w.writeOk = true →
      (eng.render_page w slug).written = some (RenderedPage.ofPage p1).html) := by
  constructor
  · intro c st page pw h st1 p1 hpw hhtml h1
    obtain ⟨cc, _, hp⟩ := encrypt_transform_ok_inversion c st page pw h st1 p1 hpw hhtml h1
    subst hp
    exact ⟨rfl, cc, rfl⟩
  · intro eng w slug f p1 hig hsrc hne htr hfresh hwr
    rw [render_page_eq eng w slug f p1 false hig hsrc hne hfresh htr]
    simp [hwr]

/-- Witness for the amended C5: the concrete encrypted page has its password
cleared, and a concrete fresh render persists exactly the pipeline html. -/
theorem C5_password_clearing_amended_witness :
    pwPageOut.frontmatter.password = some ""
    ∧ (engId.render_page worldSrc "w").written
        = some (RenderedPage.ofPage (Page.new "w" (source_rel_path "w") "hello")).html := by
  constructor
  · exact (C5_password_clearing_amended.1 fixedCrypto encStateFix pwPage "Decrypt" "hi"
      encSt1 pwPageOut rfl rfl rfl).1
  · exact C5_password_clearing_amended.2 engId worldSrc "w"
      { content := "hello", mtime := 5 } (Page.new "w" (source_rel_path "w") "hello")
      rfl rfl (by decide) rfl rfl rfl

/-- C2 counterexample: when persisting the freshly rendered html fails, the
engine does not return the fresh page; `render_page` fails with the io
error. With the persist succeeding and everything else unchanged the fresh
page is returned, so the failure is attributable to the persist alone. -/
theorem C2_persist_error_counterexample :
    worldWriteFail.writeOk = false
    ∧ (engId.render_page worldWriteFail "a").result
        = .error (.ioError "cache write failed")
    ∧ (engId.render_page { worldWriteFail with writeOk := true } "a").result
        = .ok { slug := "a", html := "<p>No content</p>", frontmatter := {}, meta := {}, cached := some false } := by
  refine ⟨rfl, ?_, ?_⟩ <;> rfl

/-- C2 (amended): an io error while persisting the freshly rendered html is
propagated — `render_page` fails with the io error and nothing is written —
and the freshly computed page is returned only when the persist succeeds. -/
theorem C2_persist_error_propagates
    (eng : TrellisEngine) (w : RenderWorld) (slug : String) (f : FsFile) (p1 : Page)
    (hig : eng.is_ignored_slug slug = false)
    (hsrc : w.source = some f) (hne : isBlank f.content = false)
    (htr : eng.registry.transform (Page.new slug (source_rel_path slug) f.content)
      = .ok (some p1))
    (hfresh : use_cache_check w.source w.cacheFile w.auxMtimes = .ok false) :
    (w.writeOk = false →
      eng.render_page w slug = ⟨.error (.ioError "cache write failed"), none⟩)
    ∧ (w.writeOk = true →
      eng.render_page w slug
        = ⟨.ok { RenderedPage.ofPage p1 with cached := some false },
            some (RenderedPage.ofPage p1).html⟩) := by
  rw [render_page_eq eng w slug f p1 false hig hsrc hne hfresh htr]
  constructor
  · intro hw; simp [hw]
  · intro hw; simp [hw]

/-- Witness for the amended C2 at the concrete failing world. -/
theorem C2_persist_error_propagates_witness :
    engId.render_page worldWriteFail "a"
      = ⟨.error (.ioError "cache write failed"), none⟩ :=
  (C2_persist_error_propagates engId worldWriteFail "a"
    { content := "hello", mtime := 5 } (Page.new "a" (source_rel_path "a") "hello")
    rfl rfl (by decide) rfl rfl).1 rfl

/-- C7: a slug whose source-relative path contains a segment equal to a
configured ignore pattern is rejected by both `page_exists` (false) and
`render_page` (NotFound), whatever the filesystem holds — in particular even
when a cache file for the slug exists. -/
theorem C7_ignored_slug_not_served
    (eng : TrellisEngine) (w : RenderWorld) (slug seg : String)
    (hseg : seg ∈ source_rel_path slug) (hpat : seg ∈ eng.ignorePatterns) :
    eng.page_exists w slug = false
    ∧ eng.render_page w slug
        = ⟨.error (.notFound ("slug " ++ slug ++ " is ignored by configuration")), none⟩
    ∧ (RError.notFound ("slug " ++ slug ++ " is ignored by configuration")).isNotFound
        = true := by
  have hig : eng.is_ignored_slug slug = true := by
    unfold TrellisEngine.is_ignored_slug
    apply List.any_eq_true.mpr
    exact ⟨seg, hseg, List.any_eq_true.mpr ⟨seg, hpat, by simp⟩⟩
  refine ⟨?_, ?_, rfl⟩
  · unfold TrellisEngine.page_exists
    simp [hig]
  · unfold TrellisEngine.render_page
    simp [hig]

/-- Witness for C7: pattern `private` blocks slug `private/secret` from both
the existence check and the render, although a cache file exists. -/
theorem C7_ignored_slug_not_served_witness :
    worldCachedStale.cacheFile.isSome = true
    ∧ engPriv.page_exists worldCachedStale "private/secret" = false
    ∧ engPriv.render_page worldCachedStale "private/secret"
        = ⟨.error (.notFound
            ("slug " ++ "private/secret" ++ " is ignored by configuration")), none⟩ := by
  have h := C7_ignored_slug_not_served engPriv worldCachedStale "private/secret" "private"
    (by decide) (by decide)
  exact ⟨rfl, h.1, h.2.1⟩

/-- C9: on a cache hit `render_page` substitutes only the html string from
the cache file — slug, frontmatter and metadata are exactly those produced
by re-running the transformer/filter chain on the current source — and the
`cached` flag is true exactly when the html came from the disk cache. -/
theorem C9_cache_hit_substitutes_only_html
    (eng : TrellisEngine) (w : RenderWorld) (slug : String) (f c : FsFile) (p1 : Page)
    (hig : eng.is_ignored_slug slug = false)
    (hsrc : w.source = some f) (hne : isBlank f.content = false)
    (htr : eng.registry.transform (Page.new slug (source_rel_path slug) f.content)
      = .ok (some p1)) :
    (use_cache_check w.source w.cacheFile w.auxMtimes = .ok true → w.cacheFile = some c →
      (eng.render_page w slug).result = .ok
        { slug := p1.slug, html := c.content, frontmatter := p1.frontmatter,
          meta := p1.meta, cached := some true })
    ∧ (use_cache_check w.source w.cacheFile w.auxMtimes = .ok false → w.writeOk = true →
      (eng.render_page w slug).result
        = .ok { RenderedPage.ofPage p1 with cached := some false }) := by
  constructor
  · intro hfresh hcf
    rw [render_page_eq eng w slug f p1 true hig hsrc hne hfresh htr, hcf]
    simp [RenderedPage.ofPage]
  · intro hfresh hw
    rw [render_page_eq eng w slug f p1 false hig hsrc hne hfresh htr]
    simp [hw]

/-- Witness for C9: a concrete cache hit returns the cached html with the
pipeline's metadata and `cached = some true`. -/
theorem C9_cache_hit_substitutes_only_html_witness :
    (engId.render_page worldHit "w").result = .ok
      { slug := "w", html := "cached html", frontmatter := {}, meta := {},
        cached := some true } :=
  (C9_cache_hit_substitutes_only_html engId worldHit "w"
    { content := "hello", mtime := 5 } { content := "cached html", mtime := 10 }
    (Page.new "w" (source_rel_path "w") "hello")
    rfl rfl (by decide) rfl).1 rfl rfl

/-- C8: the draft filter excludes exactly the pages whose frontmatter sets
`draft` to boolean true; such a page surfaces the distinct filtered signal
from a direct render and is skipped (batch continues) by `prebuild_all`,
while a page whose render succeeds is included in the returned slug list and
any error not carrying the filtered signal aborts the whole batch. -/
theorem C8_draft_filtering
    (eng : TrellisEngine) (worlds : String → RenderWorld) (slug : String) (rest : List String)
    (fm md enc : Page → TResult Page) (f : FsFile) (p1 : Page)
    (hreg : eng.registry
      = (PluginRegistry.bare_minimum fm md enc).with_filters [draftFilterInclude])
    (hig : eng.is_ignored_slug slug = false)
    (hsrc : (worlds slug).source = some f)
    (hne : isBlank f.content = false)
    (hfm : fm (Page.new slug (source_rel_path slug) f.content) = .ok p1) :
    (∀ page : Page, draftFilterInclude page = false
      ↔ page.frontmatter.get "draft" = some (Yaml.boolVal true))
    ∧ (p1.frontmatter.get "draft" = some (Yaml.boolVal true) →
        (eng.render_page (worlds slug) slug).result
          = .error (.pipeline ("page filtered out by plugins: " ++ slug))
        ∧ containsSub ("page filtered out by plugins: " ++ slug)
            "page filtered out by plugins" = true
        ∧ eng.prebuild_all worlds (slug :: rest) = eng.prebuild_all worlds rest)
    ∧ (∀ rp, (eng.render_page (worlds slug) slug).result = .ok rp →
        eng.prebuild_all worlds (slug :: rest)
          = (eng.prebuild_all worlds rest).map (fun slugs => slug :: slugs))
    ∧ (∀ e, (eng.render_page (worlds slug) slug).result = .error e →
        containsSub e.msg "page filtered out by plugins" = false →
        eng.prebuild_all worlds (slug :: rest) = .error e) := by
  have hinc : ∀ page : Page, draftFilterInclude page = false
      ↔ page.frontmatter.get "draft" = some (Yaml.boolVal true) := by
    intro page
    unfold draftFilterInclude
    cases hget : page.frontmatter.get "draft" with
    | none => simp [Option.bind]
    | some v =>
      cases v with
      | str s => simp [Option.bind, Yaml.asBool]
      | boolVal b => cases b <;> simp [Option.bind, Yaml.asBool]
      | intVal n => simp [Option.bind, Yaml.asBool]
  have hcontains : containsSub ("page filtered out by plugins: " ++ slug)
      "page filtered out by plugins" = true := by
    have hsplitmsg : "page filtered out by plugins: " ++ slug
        = "page filtered out by plugins" ++ (": " ++ slug) := by
      rw [← str_append_assoc]
      rfl
    rw [hsplitmsg]
    exact containsSub_of_prefixed _ _
  have hcons : ∀ s : String, eng.prebuild_all worlds (s :: rest)
      = match (eng.render_page (worlds s) s).result with
        | .ok _ => (eng.prebuild_all worlds rest).map (fun slugs => s :: slugs)
        | .error e =>
          if containsSub e.msg "page filtered out by plugins" then
            eng.prebuild_all worlds rest
          else .error e := fun _ => rfl
  refine ⟨hinc, ?_, ?_, ?_⟩
  · intro hdraft
    have hallow : eng.registry.allow p1 = false := by
      rw [hreg]
      show (draftFilterInclude p1 && true) = false
      rw [(hinc p1).mpr hdraft]
      rfl
    have htrans : eng.registry.transform (Page.new slug (source_rel_path slug) f.content)
        = .ok none := by
      conv_lhs => rw [hreg]
      unfold PluginRegistry.transform
      have hts : ((PluginRegistry.bare_minimum fm md enc).with_filters
          [draftFilterInclude]).transformers = [fm, md, enc] := rfl
      rw [hts]
      have hallow' : ((PluginRegistry.bare_minimum fm md enc).with_filters
          [draftFilterInclude]).allow p1 = false := by rw [← hreg]; exact hallow
      simp [hfm, hallow']
    have hrp := render_page_filtered_eq eng (worlds slug) slug f hig hsrc hne htrans
    refine ⟨by rw [hrp], hcontains, ?_⟩
    rw [hcons slug, hrp]
    simp [RError.msg, hcontains]
  · intro rp hok
    rw [hcons slug, hok]
  · intro e herr hnc
    rw [hcons slug, herr]
    simp [hnc]

/-- Witness for C8: the engine whose first stage marks the page as a draft
filters it from the prebuild batch and surfaces the filtered signal. -/
theorem C8_draft_filtering_witness :
    engDraft.prebuild_all (fun _ => worldSrc) ["d"] = .ok []
    ∧ (engDraft.render_page worldSrc "d").result
        = .error (.pipeline ("page filtered out by plugins: " ++ "d")) := by
  have h := (C8_draft_filtering engDraft (fun _ => worldSrc) "d" [] draftStage okStage
    okStage { content := "hello", mtime := 5 }
    { Page.new "d" (source_rel_path "d") "hello" with
        frontmatter := { entries := [("draft", Yaml.boolVal true)] } }
    rfl rfl rfl (by decide) rfl).2.1 (by decide)
  exact ⟨h.2.2.trans rfl, h.1⟩

/-- C3 counterexample: the script bundle cache store (bundler.rs lines
107-112) is unconditional, so with freshness timestamps F1 = 1 < F2 = 2 and
the F2 store completing first, the cache afterwards holds the F1 entry —
not the entry with the larger timestamp as the claim requires. -/
theorem C3_bundler_regression_counterexample :
    (1 : Nat) < 2
    ∧ scripts_store (scripts_store { bundles := [], mtime := 0 }
        [(ScriptKind.explorer, "fresh")] 2) [(ScriptKind.explorer, "stale")] 1
      = { bundles := [(ScriptKind.explorer, "stale")], mtime := 1 }
    ∧ ({ bundles := [(ScriptKind.explorer, "stale")], mtime := 1 } : ScriptsCache).mtime
        ≠ 2 := by
  exact ⟨by decide, rfl, by decide⟩

/-- C3 (amended): the styles cache store is monotonic in freshness timestamp
— two stores with timestamps F1 < F2, completing in either order, leave the
cache holding the F2 entry — but the script bundle cache store is
unconditional (last writer wins), so it can regress to an older entry. -/
theorem C3_cache_monotonicity_amended
    (init : StylesCache) (f1 f2 : Nat) (d1 d2 : String)
    (h01 : init.mtime < f1) (h12 : f1 < f2) :
    styles_store (styles_store init f1 d1) f2 d2 = { css := d2, mtime := f2 }
    ∧ styles_store (styles_store init f2 d2) f1 d1 = { css := d2, mtime := f2 }
    ∧ (∀ (g : ScriptsCache) (bs : List (ScriptKind × String)) (m : Nat),
        scripts_store g bs m = { bundles := bs, mtime := m }) := by
  refine ⟨?_, ?_, fun g bs m => rfl⟩
  · have h1 : styles_store init f1 d1 = { css := d1, mtime := f1 } := by
      simp [styles_store, h01]
    rw [h1]
    simp [styles_store, h12]
  · have h2 : styles_store init f2 d2 = { css := d2, mtime := f2 } := by
      have : init.mtime < f2 := by omega
      simp [styles_store, this]
    rw [h2]
    have : ¬ ((f2 : Nat) < f1) := by omega
    simp [styles_store, this]

/-- Witness for the amended C3 at concrete timestamps 0 < 1 < 2. -/
theorem C3_cache_monotonicity_amended_witness :
    styles_store (styles_store { css := "c0", mtime := 0 } 1 "c1") 2 "c2"
      = { css := "c2", mtime := 2 }
    ∧ styles_store (styles_store { css := "c0", mtime := 0 } 2 "c2") 1 "c1"
      = { css := "c2", mtime := 2 } := by
  have h := C3_cache_monotonicity_amended { css := "c0", mtime := 0 } 1 2 "c1" "c2"
    (by decide) (by decide)
  exact ⟨h.1, h.2.1⟩
